import Mathlib

/-!
# Stark key derivation and signing (`src/crypto.c`)

A shallow embedding of `eip2645_derive_private_key` and `crypto_sign_message`.

* Byte buffers are lists of naturals; a buffer produced by a primitive that
  always fills exactly 32 bytes is a `Bytes32`.
* The primitives of the secure element (`os_perso_derive_node_bip32`,
  `cx_hash_sha256`, `cx_ecfp_init_private_key`, `cx_ecdsa_sign`) are fields of
  an `Oracles` record, so every theorem holds for all of them.
  `cx_math_cmp` and `cx_math_modm` are the big-endian comparison and the
  modular reduction on fixed-width big-endian buffers.
* `THROW` is an explicit `Outcome.thrown`. The `FINALLY` block is applied to
  the state in which the `TRY` block falls through; `CATCH_OTHER(e) { THROW(e); }`
  leaves the function at once (`try_catch_other`).
* The `for (;;)` loop takes a fuel argument: `none` means that the loop is
  still running when the fuel is used up.
* Every call to a primitive is appended to a call log.
-/

namespace Starknet

/-! ## Buffers -/

/-- A buffer of exactly 32 bytes. -/
structure Bytes32 where
  bytes : List Nat
  length_eq : bytes.length = 32
  byte_lt : ∀ b ∈ bytes, b < 256

/-- Value of a buffer read as a big-endian unsigned integer. -/
def be_decode (buf : List Nat) : Nat :=
  buf.foldl (fun acc b => acc * 256 + b) 0

/-- The `len`-byte big-endian encoding of `x` (of `x % 256 ^ len`). -/
def be_encode : Nat → Nat → List Nat
  | 0, _ => []
  | len + 1, x => be_encode len (x / 256) ++ [x % 256]

/-- The state of `n` bytes after `= {0}` or after `explicit_bzero`. -/
def zeros (n : Nat) : List Nat := List.replicate n 0

/-- The call `explicit_bzero(&buf, n)`: the first `n` bytes of `buf` become zero. -/
def explicit_bzero (buf : List Nat) (n : Nat) : List Nat :=
  zeros (min n buf.length) ++ buf.drop n

/-! ## Constants of `crypto.c` -/

/-- The bytes of `C_cx_Stark256_n`, lines 28-31. -/
def C_cx_Stark256_n : List Nat :=
  [0x08, 0x00, 0x00, 0x00, 0x00, 0x00, 0x00, 0x10, 0xff, 0xff, 0xff, 0xff, 0xff, 0xff, 0xff, 0xff,
   0xb7, 0x81, 0x12, 0x6d, 0xca, 0xe7, 0xb2, 0x32, 0x1e, 0x66, 0xa2, 0x41, 0xad, 0xc6, 0x4d, 0x2f]

/-- The bytes of `STARK_DERIVE_BIAS`, lines 34-36. -/
def STARK_DERIVE_BIAS : List Nat :=
  [0xf8, 0x00, 0x00, 0x00, 0x00, 0x00, 0x02, 0x0e, 0xff, 0xff, 0xff, 0xff, 0xff, 0xff, 0xff, 0xf7,
   0x38, 0xa1, 0x3b, 0x4b, 0x92, 0x0e, 0x94, 0x11, 0xae, 0x6d, 0xa5, 0xf4, 0x0b, 0x03, 0x58, 0xb1]

/-- The group order of secp256k1 (`C_cx_secp256k1_n` in the comment of line 33). -/
def C_cx_secp256k1_n : Nat :=
  0xFFFFFFFFFFFFFFFFFFFFFFFFFFFFFFFEBAAEDCE6AF48A03BBFD25E8CD0364141

/-- The flag `CX_ECCINFO_PARITY_ODD` of the SDK: bit 0 of the `info` word. -/
def CX_ECCINFO_PARITY_ODD : Nat := 1

/-- The two constants that `crypto.c` takes from headers of the application
(`STARK_BIP32_PATH_0` and the status word `SW_DISPLAY_BIP32_PATH_FAIL`). -/
structure Consts where
  STARK_BIP32_PATH_0 : Nat
  SW_DISPLAY_BIP32_PATH_FAIL : Nat

/-! ## Bignum primitives -/

/-- The call `cx_math_cmp(a, b, len)`: sign of the comparison of the first `len` bytes
of `a` and of `b` as big-endian unsigned integers. -/
def cx_math_cmp (a b : List Nat) (len : Nat) : Int :=
  if be_decode (a.take len) < be_decode (b.take len) then -1
  else if be_decode (a.take len) = be_decode (b.take len) then 0
  else 1

/-- The call `cx_math_modm(v, len_v, m, len_m)`: `v` is replaced by `v mod m`, as a
`len_v`-byte big-endian buffer. -/
def cx_math_modm (v : List Nat) (len_v : Nat) (m : List Nat) (len_m : Nat) : List Nat :=
  be_encode len_v (be_decode (v.take len_v) % be_decode (m.take len_m)) ++ v.drop len_v

/-! ## Oracles, call log, outcomes -/

/-- The private key object `cx_ecfp_private_key_t`. -/
structure cx_ecfp_private_key_t where
  curve : Nat
  d_len : Nat
  d : List Nat
  deriving DecidableEq, Repr

/-- A call to a primitive, with the arguments it reads. -/
inductive Call where
  | os_perso_derive_node_bip32 (path : List Nat)
  | cx_hash_sha256 (input : List Nat)
  | cx_math_cmp (a b : List Nat)
  | cx_math_modm (v m : List Nat)
  | cx_ecfp_init_private_key (raw : List Nat)
  | cx_ecdsa_sign (key : cx_ecfp_private_key_t) (hash : List Nat)
  deriving DecidableEq, Repr

/-- How a call ends: `return v` or `THROW(e)`. -/
inductive Outcome where
  | returned (v : Int)
  | thrown (e : Nat)
  deriving DecidableEq, Repr

/-- What `cx_ecdsa_sign` leaves behind: the bytes of the signature buffer it
was given, and either the exception it throws or the length it returns
together with the `info` word. -/
structure SignReply where
  signature : List Nat
  result : Except Nat (Int × Nat)

/-- The primitives that the code calls and that are not fixed here.

* `os_perso_derive_node_bip32 path`: the 32 bytes left in the output buffer
  and the exception thrown, if any;
* `cx_hash_sha256 input`: the 32-byte digest;
* `cx_ecfp_init_private_key raw`: the key object, or an exception;
* `cx_ecdsa_sign key hash sig`: see `SignReply` (`sig` is the content of the
  signature buffer before the call). -/
structure Oracles where
  os_perso_derive_node_bip32 : List Nat → Bytes32 × Option Nat
  cx_hash_sha256 : List Nat → Bytes32
  cx_ecfp_init_private_key : List Nat → Except Nat cx_ecfp_private_key_t
  cx_ecdsa_sign : cx_ecfp_private_key_t → List Nat → List Nat → SignReply

/-! ## `eip2645_derive_private_key` -/

/-- The locals of `eip2645_derive_private_key` and the call log. -/
structure LoopState where
  tmp : List Nat
  index : Nat
  raw_private_key : List Nat
  calls : List Call
  deriving DecidableEq, Repr

/-- One pass through the body of `for (;;)`, lines 146-153. The flag is
`true` when the pass ends with `break`. -/
def loop_iteration (o : Oracles) (st : LoopState) : LoopState × Bool :=
  let tmp := st.tmp.set 32 st.index
  let raw := (o.cx_hash_sha256 (tmp.take 33)).bytes
  let calls := st.calls ++ [Call.cx_hash_sha256 (tmp.take 33),
                            Call.cx_math_cmp raw STARK_DERIVE_BIAS]
  if cx_math_cmp raw STARK_DERIVE_BIAS 32 < 0 then
    ({ tmp := tmp, index := st.index,
       raw_private_key := cx_math_modm raw 32 C_cx_Stark256_n 32,
       calls := calls ++ [Call.cx_math_modm raw C_cx_Stark256_n] }, true)
  else
    ({ tmp := tmp, index := (st.index + 1) % 256, raw_private_key := raw, calls := calls }, false)

/-- At most `n` passes through the loop body, stopping at `break`: the state
reached and whether `break` was executed. -/
def loop_run (o : Oracles) : Nat → LoopState → LoopState × Bool
  | 0, st => (st, false)
  | n + 1, st =>
    match loop_iteration o st with
    | (st', true) => (st', true)
    | (st', false) => loop_run o n st'

/-- The loop of lines 145-154 with fuel: `none` when the loop has not left
after `fuel` passes. -/
def derivation_loop (o : Oracles) (fuel : Nat) (st : LoopState) : Option LoopState :=
  match loop_run o fuel st with
  | (st', true) => some st'
  | (_, false) => none

/-- The sanity check of line 134. -/
def path_check_fails (c : Consts) (bip32_path : List Nat) : Bool :=
  decide (bip32_path.length < 2) || decide (bip32_path.headD 0 ≠ c.STARK_BIP32_PATH_0)

/-- What is observable when `eip2645_derive_private_key` is left. -/
structure DeriveResult where
  outcome : Outcome
  private_key : Option cx_ecfp_private_key_t
  raw_private_key : List Nat
  tmp : List Nat
  calls : List Call
  deriving DecidableEq, Repr

/-- The `TRY` block of `eip2645_derive_private_key`, lines 131-161: the state
in which the block is left, by falling through or by `THROW`. -/
def derive_try (c : Consts) (o : Oracles) (bip32_path : List Nat) (fuel : Nat) :
    Option DeriveResult :=
  let raw_private_key := zeros 32
  let tmp := zeros 33
  let index := 0
  if path_check_fails c bip32_path then
    some { outcome := Outcome.thrown c.SW_DISPLAY_BIP32_PATH_FAIL, private_key := none,
           raw_private_key := raw_private_key, tmp := tmp, calls := [] }
  else
    let reply := o.os_perso_derive_node_bip32 bip32_path
    let tmp := reply.1.bytes ++ tmp.drop 32
    let calls := [Call.os_perso_derive_node_bip32 bip32_path]
    match reply.2 with
    | some e =>
      some { outcome := Outcome.thrown e, private_key := none,
             raw_private_key := raw_private_key, tmp := tmp, calls := calls }
    | none =>
      match derivation_loop o fuel
          { tmp := tmp, index := index, raw_private_key := raw_private_key, calls := calls } with
      | none => none
      | some st =>
        let calls := st.calls ++ [Call.cx_ecfp_init_private_key (st.raw_private_key.take 32)]
        match o.cx_ecfp_init_private_key (st.raw_private_key.take 32) with
        | Except.error e =>
          some { outcome := Outcome.thrown e, private_key := none,
                 raw_private_key := st.raw_private_key, tmp := st.tmp, calls := calls }
        | Except.ok key =>
          some { outcome := Outcome.returned 0, private_key := some key,
                 raw_private_key := st.raw_private_key, tmp := st.tmp, calls := calls }

/-- The `FINALLY` block of lines 165-168. -/
def derive_finally (r : DeriveResult) : DeriveResult :=
  { r with raw_private_key := explicit_bzero r.raw_private_key 32,
           tmp := explicit_bzero r.tmp 33 }

/-- The exit is by `THROW`. -/
def Outcome.is_thrown : Outcome → Bool
  | Outcome.returned _ => false
  | Outcome.thrown _ => true

/-- The macros `BEGIN_TRY`, `TRY`, `CATCH_OTHER`, `FINALLY` and `END_TRY` of
the SDK, as used in `crypto.c` with the handler `CATCH_OTHER(e) { THROW(e); }`.
They expand to `setjmp`/`longjmp` code in which `CATCH_OTHER` restores the
enclosing try context before its handler runs, so the `THROW(e)` of the
handler jumps out of the function at once: the block after `FINALLY` is
executed only when the `TRY` block falls through, and on the exit by
exception the state is the one the `TRY` block was left in. A `TRY` block that
is never left (`none`) has no exit. -/
def try_catch_other {α : Type} (threw : α → Bool) (body : Option α) (finalizer : α → α) :
    Option α :=
  body.map fun r => if threw r then r else finalizer r

/-- The function `eip2645_derive_private_key(private_key, bip32_path,
bip32_path_len)`, lines 122-173: the `TRY` block of lines 131-161, the handler
of lines 162-164 and the `FINALLY` block of lines 165-168. -/
def eip2645_derive_private_key (c : Consts) (o : Oracles) (bip32_path : List Nat)
    (fuel : Nat) : Option DeriveResult :=
  try_catch_other (fun r => r.outcome.is_thrown) (derive_try c o bip32_path fuel)
    derive_finally

/-! ## `crypto_sign_message` -/

/-- Modelled from the spec: the declaration of `G_context` is not in
`crypto.c`. These are the fields of `G_context.hash_info` that
`crypto_sign_message` uses: the message digest `m_hash` and the output slots
for the signature bytes, their length and the parity. The width of the
length slot is not visible in `crypto.c`; it holds the length as returned. -/
structure hash_info_t where
  m_hash : List Nat
  signature : List Nat
  signature_len : Nat
  v : Nat
  deriving DecidableEq, Repr

/-- Modelled from the spec: the declaration of `G_context` is not in
`crypto.c`. The shared session context holds the current derivation path
(`bip32_path`, with its `bip32_path_len` indices) and `hash_info`. -/
structure global_ctx_t where
  bip32_path : List Nat
  hash_info : hash_info_t
  deriving DecidableEq, Repr

/-- What is observable when `crypto_sign_message` is left. -/
structure SignResult where
  outcome : Outcome
  G_context : global_ctx_t
  private_key : cx_ecfp_private_key_t
  calls : List Call
  deriving DecidableEq, Repr

/-- A `cx_ecfp_private_key_t` after `= {0}` or after `explicit_bzero`. -/
def zero_private_key : cx_ecfp_private_key_t :=
  { curve := 0, d_len := 0, d := zeros 32 }

/-- The function `crypto_sign_message()`, lines 81-120. The derivation is
called outside the `TRY` block, so what it throws leaves the function at once.
The signing oracle writes into `G_context.hash_info.signature` itself. When
it throws, `CATCH_OTHER(e) { THROW(e); }` leaves the function with the local
`private_key` as derived; when it returns, the `FINALLY` block erases
`private_key` and lines 112-119 run. -/
def crypto_sign_message (c : Consts) (o : Oracles) (G_context : global_ctx_t) (fuel : Nat) :
    Option SignResult :=
  let private_key := zero_private_key
  match eip2645_derive_private_key c o G_context.bip32_path fuel with
  | none => none
  | some d =>
    match d.outcome with
    | Outcome.thrown e =>
      some { outcome := Outcome.thrown e, G_context := G_context,
             private_key := d.private_key.getD private_key, calls := d.calls }
    | Outcome.returned _ =>
      let private_key := d.private_key.getD private_key
      -- TRY
      let reply := o.cx_ecdsa_sign private_key G_context.hash_info.m_hash
        G_context.hash_info.signature
      let calls := d.calls ++ [Call.cx_ecdsa_sign private_key G_context.hash_info.m_hash]
      let G_context : global_ctx_t :=
        { G_context with hash_info := { G_context.hash_info with signature := reply.signature } }
      match reply.result with
      | Except.error e =>
        -- CATCH_OTHER(e) { THROW(e); }
        some { outcome := Outcome.thrown e, G_context := G_context,
               private_key := private_key, calls := calls }
      | Except.ok (sig_len, info) =>
        -- FINALLY
        let private_key := zero_private_key
        if sig_len < 0 then
          some { outcome := Outcome.returned (-1), G_context := G_context,
                 private_key := private_key, calls := calls }
        else
          some { outcome := Outcome.returned 0,
                 G_context :=
                   { G_context with hash_info :=
                       { G_context.hash_info with
                         signature_len := sig_len.toNat,
                         v := (Nat.land info CX_ECCINFO_PARITY_ODD) % 256 } },
                 private_key := private_key, calls := calls }

/-! ## Vocabulary of the statements -/

/-- The candidate for retry index `k`: the digest of the 33-byte buffer made
of the 32 bytes of the seed followed by the byte `k`. -/
def candidate (o : Oracles) (seed : Bytes32) (k : Nat) : Bytes32 :=
  o.cx_hash_sha256 (seed.bytes ++ [k])

/-- The candidate is below the threshold, as big-endian unsigned integers. -/
def below_bias (cand : Bytes32) : Prop :=
  be_decode cand.bytes < be_decode STARK_DERIVE_BIAS

instance (cand : Bytes32) : Decidable (below_bias cand) := by
  unfold below_bias; infer_instance

/-- The inputs of the hash calls of a call log, in the order of the calls. -/
def hash_inputs (calls : List Call) : List (List Nat) :=
  calls.filterMap fun call =>
    match call with
    | Call.cx_hash_sha256 input => some input
    | _ => none

/-- The buffers handed to the private-key initialiser in a call log. -/
def init_inputs (calls : List Call) : List (List Nat) :=
  calls.filterMap fun call =>
    match call with
    | Call.cx_ecfp_init_private_key raw => some raw
    | _ => none

/-- The calls made by `m` rejecting passes that start at retry index `i`. -/
def rejected_calls (o : Oracles) (seed : Bytes32) (i : Nat) : Nat → List Call
  | 0 => []
  | m + 1 =>
    rejected_calls o seed i m ++
      [Call.cx_hash_sha256 (seed.bytes ++ [(i + m) % 256]),
       Call.cx_math_cmp (candidate o seed ((i + m) % 256)).bytes STARK_DERIVE_BIAS]

/-- The calls made by the accepting pass at retry index `k`. -/
def accepting_calls (o : Oracles) (seed : Bytes32) (k : Nat) : List Call :=
  [Call.cx_hash_sha256 (seed.bytes ++ [k]),
   Call.cx_math_cmp (candidate o seed k).bytes STARK_DERIVE_BIAS,
   Call.cx_math_modm (candidate o seed k).bytes C_cx_Stark256_n]

/-- The scalar obtained from the candidate of retry index `k`. -/
def reduced (o : Oracles) (seed : Bytes32) (k : Nat) : List Nat :=
  be_encode 32 (be_decode (candidate o seed k).bytes % be_decode C_cx_Stark256_n)

/-- The state in which the loop is entered after the seed oracle has
returned `seed` for `bip32_path`. -/
def loop_entry (seed : Bytes32) (bip32_path : List Nat) : LoopState :=
  { tmp := seed.bytes ++ [0], index := 0, raw_private_key := zeros 32,
    calls := [Call.os_perso_derive_node_bip32 bip32_path] }

/-- The result of the derivation when the candidates of the retry indices
below `k` are rejected and the one of index `k` is accepted: the locals are
erased when the initialiser returns, and hold the scalar and the hashed buffer
when it throws. -/
def accepted_result (o : Oracles) (seed : Bytes32) (bip32_path : List Nat) (k : Nat) :
    DeriveResult :=
  { outcome :=
      match o.cx_ecfp_init_private_key (reduced o seed k) with
      | Except.error e => Outcome.thrown e
      | Except.ok _ => Outcome.returned 0,
    private_key :=
      match o.cx_ecfp_init_private_key (reduced o seed k) with
      | Except.error _ => none
      | Except.ok key => some key,
    raw_private_key :=
      match o.cx_ecfp_init_private_key (reduced o seed k) with
      | Except.error _ => reduced o seed k
      | Except.ok _ => zeros 32,
    tmp :=
      match o.cx_ecfp_init_private_key (reduced o seed k) with
      | Except.error _ => seed.bytes ++ [k]
      | Except.ok _ => zeros 33,
    calls := Call.os_perso_derive_node_bip32 bip32_path ::
      (rejected_calls o seed 0 k ++ accepting_calls o seed k) ++
        [Call.cx_ecfp_init_private_key (reduced o seed k)] }

/-! ## Sample inputs -/

/-- Sample values of the two header constants: the hardened purpose index
`2645'` and a status word. -/
def sample_consts : Consts :=
  { STARK_BIP32_PATH_0 := 0x80000A55, SW_DISPLAY_BIP32_PATH_FAIL := 0xB001 }

/-- A valid path: the purpose index followed by `0`. -/
def sample_path : List Nat := [0x80000A55, 0]

/-- A path with a wrong leading index. -/
def wrong_path : List Nat := [0x8000002C, 0]

/-- The seed whose bytes are zero except the last one, which is `0x01`. -/
def seed_one : Bytes32 := ⟨zeros 31 ++ [1], by decide, by decide⟩

/-- The digest `ff .. ff`, above the threshold. -/
def digest_ff : Bytes32 := ⟨List.replicate 32 0xff, by decide, by decide⟩

/-- The digest `00 .. 00`. -/
def digest_zero : Bytes32 := ⟨zeros 32, by decide, by decide⟩

/-- The digest `00 .. 00 05`. -/
def digest_five : Bytes32 := ⟨zeros 31 ++ [5], by decide, by decide⟩

/-- The digest whose bytes are those of `C_cx_Stark256_n`. -/
def digest_order : Bytes32 := ⟨C_cx_Stark256_n, by decide, by decide⟩

/-- The digest whose bytes are those of `STARK_DERIVE_BIAS`. -/
def digest_bias : Bytes32 := ⟨STARK_DERIVE_BIAS, by decide, by decide⟩

/-- An initialiser that stores the scalar in a key object. -/
def sample_init (raw : List Nat) : Except Nat cx_ecfp_private_key_t :=
  Except.ok { curve := 0x51, d_len := 32, d := raw }

/-- A signing oracle that leaves the buffer alone and returns `len`, `info`. -/
def sample_sign (len : Int) (info : Nat) (_key : cx_ecfp_private_key_t)
    (_hash sig : List Nat) : SignReply :=
  { signature := sig, result := Except.ok (len, info) }

/-- Oracles whose seed is `seed_one` and whose hash is `hash`. -/
def sample_oracles (hash : List Nat → Bytes32) : Oracles :=
  { os_perso_derive_node_bip32 := fun _ => (seed_one, none),
    cx_hash_sha256 := hash,
    cx_ecfp_init_private_key := sample_init,
    cx_ecdsa_sign := sample_sign 64 1 }

/-- A hash that is above the threshold for the retry indices `0` and `1`
and yields `00 .. 00 05` from index `2` on. -/
def hash_third (input : List Nat) : Bytes32 :=
  if input.getLastD 0 < 2 then digest_ff else digest_five

/-- Oracles whose seed oracle throws `0x6985` after filling the buffer. -/
def oracles_seed_throws : Oracles :=
  { sample_oracles hash_third with
    os_perso_derive_node_bip32 := fun _ => (digest_ff, some 0x6985) }

/-- Oracles whose private-key initialiser throws `0x6F00`. -/
def oracles_init_throws : Oracles :=
  { sample_oracles hash_third with
    cx_ecfp_init_private_key := fun _ => Except.error 0x6F00 }

/-- A signing oracle that fills the signature buffer with `aa` bytes and
returns the length `-1`. -/
def sign_negative (_key : cx_ecfp_private_key_t) (_hash sig : List Nat) : SignReply :=
  { signature := List.replicate sig.length 0xAA, result := Except.ok (-1, 0) }

/-- A signing oracle that fills the signature buffer with `aa` bytes and
throws `0x6F01`. -/
def sign_throws (_key : cx_ecfp_private_key_t) (_hash sig : List Nat) : SignReply :=
  { signature := List.replicate sig.length 0xAA, result := Except.error 0x6F01 }

/-- Oracles whose first candidate is accepted, with the signing oracle `sign`. -/
def signing_oracles
    (sign : cx_ecfp_private_key_t → List Nat → List Nat → SignReply) : Oracles :=
  { sample_oracles (fun _ => digest_five) with cx_ecdsa_sign := sign }

/-- A session context: valid path, a digest, an empty 72-byte signature
buffer, `signature_len = 0`, `v = 0`. -/
def sample_context : global_ctx_t :=
  { bip32_path := sample_path,
    hash_info := { m_hash := digest_five.bytes, signature := zeros 72,
                   signature_len := 0, v := 0 } }

/-! ## Buffers: encoding and decoding -/

theorem be_decode_append_singleton (l : List Nat) (b : Nat) :
    be_decode (l ++ [b]) = be_decode l * 256 + b := by
  simp [be_decode, List.foldl_append]

theorem be_encode_length (len x : Nat) : (be_encode len x).length = len := by
  induction len generalizing x with
  | zero => rfl
  | succ k ih => simp [be_encode, ih]

theorem be_encode_byte_lt (len x : Nat) : ∀ b ∈ be_encode len x, b < 256 := by
  induction len generalizing x with
  | zero => intro b hb; simp [be_encode] at hb
  | succ k ih =>
    intro b hb
    simp only [be_encode, List.mem_append, List.mem_singleton] at hb
    rcases hb with hb | hb
    · exact ih _ b hb
    · subst hb; exact Nat.mod_lt _ (by norm_num)

theorem be_decode_encode (len x : Nat) : be_decode (be_encode len x) = x % 256 ^ len := by
  induction len generalizing x with
  | zero => simp [be_encode, be_decode, Nat.mod_one]
  | succ k ih =>
    rw [be_encode, be_decode_append_singleton, ih, pow_succ', Nat.mod_mul]
    ring

theorem be_decode_encode_of_lt (len x : Nat) (h : x < 256 ^ len) :
    be_decode (be_encode len x) = x := by
  rw [be_decode_encode, Nat.mod_eq_of_lt h]

theorem be_decode_Stark256_n :
    be_decode C_cx_Stark256_n
      = 0x0800000000000010ffffffffffffffffb781126dcae7b2321e66a241adc64d2f := by
  simp [be_decode, C_cx_Stark256_n]

theorem Stark256_n_pos : 0 < be_decode C_cx_Stark256_n := by
  rw [be_decode_Stark256_n]; norm_num

theorem Stark256_n_lt : be_decode C_cx_Stark256_n < 256 ^ 32 := by
  rw [be_decode_Stark256_n]; norm_num

theorem be_decode_STARK_DERIVE_BIAS :
    be_decode STARK_DERIVE_BIAS
      = 0xf80000000000020efffffffffffffff738a13b4b920e9411ae6da5f40b0358b1 := by
  simp [be_decode, STARK_DERIVE_BIAS]

/-! ## The loop -/

theorem cx_math_cmp_neg_iff (a b : List Nat) (len : Nat) :
    cx_math_cmp a b len < 0 ↔ be_decode (a.take len) < be_decode (b.take len) := by
  unfold cx_math_cmp
  split_ifs with h1 h2
  · simp [h1]
  · simp [h1]
  · simp [h1]

theorem Bytes32.take_eq (b : Bytes32) : b.bytes.take 32 = b.bytes :=
  List.take_of_length_le (by rw [b.length_eq])

theorem Bytes32.drop_eq (b : Bytes32) : b.bytes.drop 32 = [] :=
  List.drop_of_length_le (by rw [b.length_eq])

theorem take_STARK_DERIVE_BIAS : STARK_DERIVE_BIAS.take 32 = STARK_DERIVE_BIAS := rfl

theorem take_Stark256_n : C_cx_Stark256_n.take 32 = C_cx_Stark256_n := rfl

theorem cmp_bias_iff (cand : Bytes32) :
    cx_math_cmp cand.bytes STARK_DERIVE_BIAS 32 < 0 ↔ below_bias cand := by
  rw [cx_math_cmp_neg_iff, cand.take_eq, take_STARK_DERIVE_BIAS, below_bias]

theorem modm_candidate (cand : Bytes32) :
    cx_math_modm cand.bytes 32 C_cx_Stark256_n 32
      = be_encode 32 (be_decode cand.bytes % be_decode C_cx_Stark256_n) := by
  simp [cx_math_modm, cand.take_eq, cand.drop_eq, take_Stark256_n]

theorem take_seed_index (seed : Bytes32) (i : Nat) :
    (seed.bytes ++ [i]).take 33 = seed.bytes ++ [i] := by
  apply List.take_of_length_le
  simp [seed.length_eq]

theorem stored_index (seed : Bytes32) (x i : Nat) :
    (seed.bytes ++ [x]).set 32 i = seed.bytes ++ [i] := by
  simp [List.set_append, seed.length_eq]

/-- A pass that finds its candidate below the threshold reduces it and
leaves the loop. -/
theorem loop_iteration_accept (o : Oracles) (seed : Bytes32) (st : LoopState) (x : Nat)
    (htmp : st.tmp = seed.bytes ++ [x]) (h : below_bias (candidate o seed st.index)) :
    loop_iteration o st =
      ({ tmp := seed.bytes ++ [st.index], index := st.index,
         raw_private_key := reduced o seed st.index,
         calls := st.calls ++ accepting_calls o seed st.index }, true) := by
  have hc := (cmp_bias_iff (candidate o seed st.index)).2 h
  unfold candidate at hc
  simp only [loop_iteration, htmp, stored_index, take_seed_index, hc, if_true, modm_candidate,
    reduced, accepting_calls, candidate, List.append_assoc, List.cons_append, List.nil_append]

/-- A pass that finds its candidate at or above the threshold keeps it in
`raw_private_key` and increments the 8-bit index. -/
theorem loop_iteration_reject (o : Oracles) (seed : Bytes32) (st : LoopState) (x : Nat)
    (htmp : st.tmp = seed.bytes ++ [x]) (h : ¬ below_bias (candidate o seed st.index)) :
    loop_iteration o st =
      ({ tmp := seed.bytes ++ [st.index], index := (st.index + 1) % 256,
         raw_private_key := (candidate o seed st.index).bytes,
         calls := st.calls ++
           [Call.cx_hash_sha256 (seed.bytes ++ [st.index]),
            Call.cx_math_cmp (candidate o seed st.index).bytes STARK_DERIVE_BIAS] }, false) := by
  have hc := (not_congr (cmp_bias_iff (candidate o seed st.index))).2 h
  unfold candidate at hc
  simp only [loop_iteration, htmp, stored_index, take_seed_index, hc, if_false, candidate]

theorem loop_run_succ (o : Oracles) (n : Nat) (st : LoopState) :
    loop_run o (n + 1) st =
      if (loop_iteration o st).2 then loop_iteration o st
      else loop_run o n (loop_iteration o st).1 := by
  rw [loop_run]
  rcases h : loop_iteration o st with ⟨st', b⟩
  cases b <;> simp

/-- Running `a + b` passes is running `a` passes and, unless the loop was
left, `b` more. -/
theorem loop_run_add (o : Oracles) (a b : Nat) (st : LoopState) :
    loop_run o (a + b) st =
      if (loop_run o a st).2 then loop_run o a st
      else loop_run o b (loop_run o a st).1 := by
  induction a generalizing st with
  | zero => simp [loop_run]
  | succ a ih =>
    rw [show a + 1 + b = (a + b) + 1 by omega, loop_run_succ, loop_run_succ]
    by_cases hb : (loop_iteration o st).2 = true
    · simp [hb]
    · simp only [hb, if_false, Bool.false_eq_true]
      exact ih _

/-- The state after `m` rejecting passes. -/
theorem loop_run_reject (o : Oracles) (seed : Bytes32) (m : Nat) (st : LoopState) (x : Nat)
    (htmp : st.tmp = seed.bytes ++ [x]) (hidx : st.index < 256)
    (hrej : ∀ j < m, ¬ below_bias (candidate o seed ((st.index + j) % 256))) :
    loop_run o m st =
      ({ tmp := seed.bytes ++ [if m = 0 then x else (st.index + m - 1) % 256],
         index := (st.index + m) % 256,
         raw_private_key :=
           if m = 0 then st.raw_private_key
           else (candidate o seed ((st.index + m - 1) % 256)).bytes,
         calls := st.calls ++ rejected_calls o seed st.index m }, false) := by
  induction m with
  | zero =>
    cases st
    simp_all [loop_run, rejected_calls, Nat.mod_eq_of_lt]
  | succ m ih =>
    have ih' := ih (fun j hj => hrej j (Nat.lt_succ_of_lt hj))
    have hm := hrej m (Nat.lt_succ_self m)
    rw [loop_run_add, ih']
    simp only [Bool.false_eq_true, if_false]
    rw [show (1 : Nat) = 0 + 1 from rfl, loop_run_succ,
      loop_iteration_reject o seed _ (if m = 0 then x else (st.index + m - 1) % 256) rfl hm]
    simp only [Bool.false_eq_true, if_false, loop_run, rejected_calls, Nat.succ_ne_zero,
      Nat.add_succ_sub_one, Nat.mod_add_mod, List.append_assoc, Nat.add_assoc]
    rfl

/-- When the first `m` passes reject and the next one accepts, any fuel above
`m` leaves the loop in the same state. -/
theorem loop_run_accept (o : Oracles) (seed : Bytes32) (m e : Nat) (st : LoopState) (x : Nat)
    (htmp : st.tmp = seed.bytes ++ [x]) (hidx : st.index < 256)
    (hrej : ∀ j < m, ¬ below_bias (candidate o seed ((st.index + j) % 256)))
    (hacc : below_bias (candidate o seed ((st.index + m) % 256))) :
    loop_run o (m + (e + 1)) st =
      ({ tmp := seed.bytes ++ [(st.index + m) % 256],
         index := (st.index + m) % 256,
         raw_private_key := reduced o seed ((st.index + m) % 256),
         calls := st.calls ++ (rejected_calls o seed st.index m ++
           accepting_calls o seed ((st.index + m) % 256)) }, true) := by
  rw [loop_run_add, loop_run_reject o seed m st x htmp hidx hrej]
  simp only [Bool.false_eq_true, if_false]
  rw [loop_run_succ,
    loop_iteration_accept o seed _ (if m = 0 then x else (st.index + m - 1) % 256) rfl hacc]
  simp only [if_true, List.append_assoc]

/-! ## The whole derivation -/

theorem explicit_bzero_of_length (buf : List Nat) (n : Nat) (h : buf.length = n) :
    explicit_bzero buf n = zeros n := by
  simp [explicit_bzero, h, List.drop_of_length_le (Nat.le_of_eq h)]

theorem reduced_length (o : Oracles) (seed : Bytes32) (k : Nat) :
    (reduced o seed k).length = 32 := be_encode_length _ _

theorem reduced_take (o : Oracles) (seed : Bytes32) (k : Nat) :
    (reduced o seed k).take 32 = reduced o seed k :=
  List.take_of_length_le (by rw [reduced_length])

theorem path_check_fails_iff (c : Consts) (bip32_path : List Nat) :
    path_check_fails c bip32_path = true ↔
      bip32_path.length < 2 ∨ bip32_path.headD 0 ≠ c.STARK_BIP32_PATH_0 := by
  simp [path_check_fails]

theorem path_check_passes_iff (c : Consts) (bip32_path : List Nat) :
    path_check_fails c bip32_path = false ↔
      2 ≤ bip32_path.length ∧ bip32_path.headD 0 = c.STARK_BIP32_PATH_0 := by
  rw [← Bool.not_eq_true, path_check_fails_iff]
  push_neg
  rfl

/-- Exit by the sanity check. -/
theorem derive_invalid_path (c : Consts) (o : Oracles) (bip32_path : List Nat) (fuel : Nat)
    (h : path_check_fails c bip32_path = true) :
    eip2645_derive_private_key c o bip32_path fuel =
      some { outcome := Outcome.thrown c.SW_DISPLAY_BIP32_PATH_FAIL, private_key := none,
             raw_private_key := zeros 32, tmp := zeros 33, calls := [] } := by
  simp only [eip2645_derive_private_key, try_catch_other, derive_try, h, if_true,
    Option.map_some', Outcome.is_thrown]

/-- Exit by an exception of the seed oracle: `tmp` holds what the oracle
left in it. -/
theorem derive_seed_throws (c : Consts) (o : Oracles) (bip32_path : List Nat) (fuel e : Nat)
    (h : path_check_fails c bip32_path = false)
    (hseed : (o.os_perso_derive_node_bip32 bip32_path).2 = some e) :
    eip2645_derive_private_key c o bip32_path fuel =
      some { outcome := Outcome.thrown e, private_key := none,
             raw_private_key := zeros 32,
             tmp := (o.os_perso_derive_node_bip32 bip32_path).1.bytes ++ [0],
             calls := [Call.os_perso_derive_node_bip32 bip32_path] } := by
  simp only [eip2645_derive_private_key, try_catch_other, derive_try, h, hseed,
    Option.map_some', Bool.false_eq_true, if_false, Outcome.is_thrown, if_true]
  rfl

/-- The `TRY` block when the seed oracle returns and the loop is entered. -/
theorem derive_try_loop (c : Consts) (o : Oracles) (bip32_path : List Nat) (fuel : Nat)
    (h : path_check_fails c bip32_path = false)
    (hseed : (o.os_perso_derive_node_bip32 bip32_path).2 = none) :
    derive_try c o bip32_path fuel =
      match derivation_loop o fuel
          (loop_entry (o.os_perso_derive_node_bip32 bip32_path).1 bip32_path) with
      | none => none
      | some st =>
        match o.cx_ecfp_init_private_key (st.raw_private_key.take 32) with
        | Except.error e =>
          some { outcome := Outcome.thrown e, private_key := none,
                 raw_private_key := st.raw_private_key, tmp := st.tmp,
                 calls := st.calls ++
                   [Call.cx_ecfp_init_private_key (st.raw_private_key.take 32)] }
        | Except.ok key =>
          some { outcome := Outcome.returned 0, private_key := some key,
                 raw_private_key := st.raw_private_key, tmp := st.tmp,
                 calls := st.calls ++
                   [Call.cx_ecfp_init_private_key (st.raw_private_key.take 32)] } := by
  simp only [derive_try, h, hseed, Bool.false_eq_true, if_false]
  rfl

/-- Exit through the initialiser: rejected below `k`, accepted at `k`. -/
theorem derive_accept (c : Consts) (o : Oracles) (bip32_path : List Nat) (k fuel : Nat)
    (h : path_check_fails c bip32_path = false)
    (hseed : (o.os_perso_derive_node_bip32 bip32_path).2 = none)
    (hk : k < 256)
    (hrej : ∀ j < k,
      ¬ below_bias (candidate o (o.os_perso_derive_node_bip32 bip32_path).1 j))
    (hacc : below_bias (candidate o (o.os_perso_derive_node_bip32 bip32_path).1 k))
    (hfuel : k < fuel) :
    eip2645_derive_private_key c o bip32_path fuel =
      some (accepted_result o (o.os_perso_derive_node_bip32 bip32_path).1 bip32_path k) := by
  obtain ⟨e, rfl⟩ : ∃ e, fuel = k + (e + 1) := ⟨fuel - k - 1, by omega⟩
  have hrun := loop_run_accept o (o.os_perso_derive_node_bip32 bip32_path).1 k e
    (loop_entry (o.os_perso_derive_node_bip32 bip32_path).1 bip32_path) 0 rfl
    (by simp [loop_entry])
    (by
      intro j hj
      have : j % 256 = j := Nat.mod_eq_of_lt (by omega)
      simpa [loop_entry, this] using hrej j hj)
    (by
      have : k % 256 = k := Nat.mod_eq_of_lt hk
      simpa [loop_entry, this] using hacc)
  have hk' : (0 + k) % 256 = k := by rw [Nat.zero_add]; exact Nat.mod_eq_of_lt hk
  simp only [loop_entry, hk'] at hrun
  simp only [eip2645_derive_private_key, try_catch_other,
    derive_try_loop c o bip32_path _ h hseed, derivation_loop, loop_entry, hrun, reduced_take]
  have h33 : ((o.os_perso_derive_node_bip32 bip32_path).1.bytes ++ [k]).length = 33 := by
    simp [(o.os_perso_derive_node_bip32 bip32_path).1.length_eq]
  cases hinit : o.cx_ecfp_init_private_key
      (reduced o (o.os_perso_derive_node_bip32 bip32_path).1 k) <;>
    simp [derive_finally, accepted_result, hinit, explicit_bzero_of_length _ 33 h33,
      explicit_bzero_of_length _ 32 (reduced_length _ _ _), Outcome.is_thrown]

/-- As long as the candidates of the first `fuel` passes are rejected, the
loop is not left. -/
theorem derive_rejecting (c : Consts) (o : Oracles) (bip32_path : List Nat) (fuel : Nat)
    (h : path_check_fails c bip32_path = false)
    (hseed : (o.os_perso_derive_node_bip32 bip32_path).2 = none)
    (hrej : ∀ j < fuel,
      ¬ below_bias (candidate o (o.os_perso_derive_node_bip32 bip32_path).1 (j % 256))) :
    eip2645_derive_private_key c o bip32_path fuel = none := by
  have hrun := loop_run_reject o (o.os_perso_derive_node_bip32 bip32_path).1 fuel
    (loop_entry (o.os_perso_derive_node_bip32 bip32_path).1 bip32_path) 0 rfl
    (by simp [loop_entry])
    (by simpa [loop_entry] using hrej)
  simp only [eip2645_derive_private_key, try_catch_other,
    derive_try_loop c o bip32_path _ h hseed, derivation_loop, hrun, Option.map_none']

/-- When none of the 256 candidates is below the threshold the loop is never
left, whatever the fuel. -/
theorem derive_diverges (c : Consts) (o : Oracles) (bip32_path : List Nat) (fuel : Nat)
    (h : path_check_fails c bip32_path = false)
    (hseed : (o.os_perso_derive_node_bip32 bip32_path).2 = none)
    (hnone : ∀ k < 256,
      ¬ below_bias (candidate o (o.os_perso_derive_node_bip32 bip32_path).1 k)) :
    eip2645_derive_private_key c o bip32_path fuel = none :=
  derive_rejecting c o bip32_path fuel h hseed
    (fun j _ => hnone _ (Nat.mod_lt _ (by norm_num)))

/-- The first accepted retry index, when there is one. -/
theorem exists_first_accepted (o : Oracles) (seed : Bytes32)
    (hex : ∃ k, k < 256 ∧ below_bias (candidate o seed k)) :
    ∃ k, k < 256 ∧ below_bias (candidate o seed k) ∧
      ∀ j < k, ¬ below_bias (candidate o seed j) := by
  classical
  refine ⟨Nat.find hex, (Nat.find_spec hex).1, (Nat.find_spec hex).2, ?_⟩
  intro j hj hb
  exact Nat.find_min hex hj ⟨lt_trans hj (Nat.find_spec hex).1, hb⟩

/-- Every way in which the derivation is left: by the sanity check, by an
exception of the seed oracle, or through the initialiser after the first
accepted candidate. -/
theorem derive_exits (c : Consts) (o : Oracles) (bip32_path : List Nat) (fuel : Nat)
    (r : DeriveResult) (hr : eip2645_derive_private_key c o bip32_path fuel = some r) :
    (path_check_fails c bip32_path = true ∧
      r = { outcome := Outcome.thrown c.SW_DISPLAY_BIP32_PATH_FAIL, private_key := none,
            raw_private_key := zeros 32, tmp := zeros 33, calls := [] }) ∨
    (path_check_fails c bip32_path = false ∧
      ∃ e, (o.os_perso_derive_node_bip32 bip32_path).2 = some e ∧
        r = { outcome := Outcome.thrown e, private_key := none,
              raw_private_key := zeros 32,
              tmp := (o.os_perso_derive_node_bip32 bip32_path).1.bytes ++ [0],
              calls := [Call.os_perso_derive_node_bip32 bip32_path] }) ∨
    (path_check_fails c bip32_path = false ∧
      (o.os_perso_derive_node_bip32 bip32_path).2 = none ∧
      ∃ k, k < 256 ∧ k < fuel ∧
        (∀ j < k,
          ¬ below_bias (candidate o (o.os_perso_derive_node_bip32 bip32_path).1 j)) ∧
        below_bias (candidate o (o.os_perso_derive_node_bip32 bip32_path).1 k) ∧
        r = accepted_result o (o.os_perso_derive_node_bip32 bip32_path).1 bip32_path k) := by
  cases hp : path_check_fails c bip32_path with
  | true =>
    left
    rw [derive_invalid_path c o bip32_path fuel hp] at hr
    exact ⟨rfl, (Option.some.inj hr).symm⟩
  | false =>
    right
    cases hs : (o.os_perso_derive_node_bip32 bip32_path).2 with
    | some e =>
      left
      rw [derive_seed_throws c o bip32_path fuel e hp hs] at hr
      exact ⟨rfl, e, rfl, (Option.some.inj hr).symm⟩
    | none =>
      right
      refine ⟨rfl, rfl, ?_⟩
      by_cases hex : ∃ k, k < 256 ∧
          below_bias (candidate o (o.os_perso_derive_node_bip32 bip32_path).1 k)
      · obtain ⟨k, hk, hacc, hrej⟩ := exists_first_accepted o _ hex
        by_cases hf : k < fuel
        · rw [derive_accept c o bip32_path k fuel hp hs hk hrej hacc hf] at hr
          exact ⟨k, hk, hf, hrej, hacc, (Option.some.inj hr).symm⟩
        · rw [derive_rejecting c o bip32_path fuel hp hs (fun j hj => by
            have hjk : j < k := by omega
            rw [Nat.mod_eq_of_lt (by omega)]
            exact hrej j hjk)] at hr
          exact absurd hr (by simp)
      · rw [derive_diverges c o bip32_path fuel hp hs (fun k hk hb => hex ⟨k, hk, hb⟩)] at hr
        exact absurd hr (by simp)

/-! ## Call logs -/

theorem hash_inputs_append (l l' : List Call) :
    hash_inputs (l ++ l') = hash_inputs l ++ hash_inputs l' := by
  simp [hash_inputs, List.filterMap_append]

theorem init_inputs_append (l l' : List Call) :
    init_inputs (l ++ l') = init_inputs l ++ init_inputs l' := by
  simp [init_inputs, List.filterMap_append]

theorem hash_inputs_rejected (o : Oracles) (seed : Bytes32) (i m : Nat) :
    hash_inputs (rejected_calls o seed i m)
      = (List.range m).map (fun j => seed.bytes ++ [(i + j) % 256]) := by
  induction m with
  | zero => rfl
  | succ m ih =>
    rw [rejected_calls, hash_inputs_append, ih, List.range_succ, List.map_append]
    rfl

theorem init_inputs_rejected (o : Oracles) (seed : Bytes32) (i m : Nat) :
    init_inputs (rejected_calls o seed i m) = [] := by
  induction m with
  | zero => rfl
  | succ m ih =>
    rw [rejected_calls, init_inputs_append, ih]
    rfl

theorem map_seed_index_mod (seed : Bytes32) (m : Nat) (hm : m ≤ 256) :
    (List.range m).map (fun j => seed.bytes ++ [(0 + j) % 256])
      = (List.range m).map (fun j => seed.bytes ++ [j]) := by
  apply List.map_congr_left
  intro j hj
  have : j < m := List.mem_range.1 hj
  rw [Nat.zero_add, Nat.mod_eq_of_lt (by omega)]

/-- The only buffer handed to the initialiser by a derivation that accepts at
retry index `k` is the reduced candidate. -/
theorem init_inputs_accepted (o : Oracles) (seed : Bytes32) (bip32_path : List Nat) (k : Nat) :
    init_inputs (accepted_result o seed bip32_path k).calls = [reduced o seed k] := by
  simp only [accepted_result, List.cons_append]
  rw [show ∀ l, Call.os_perso_derive_node_bip32 bip32_path :: l
        = [Call.os_perso_derive_node_bip32 bip32_path] ++ l from fun _ => rfl,
    init_inputs_append, init_inputs_append, init_inputs_append, init_inputs_rejected]
  rfl

theorem be_decode_reduced (o : Oracles) (seed : Bytes32) (k : Nat) :
    be_decode (reduced o seed k)
      = be_decode (candidate o seed k).bytes % be_decode C_cx_Stark256_n := by
  unfold reduced
  apply be_decode_encode_of_lt
  exact lt_trans (Nat.mod_lt _ Stark256_n_pos) Stark256_n_lt

/-! ## The constants -/

theorem bias_eq_mul : be_decode STARK_DERIVE_BIAS = 31 * be_decode C_cx_Stark256_n := by
  rw [be_decode_Stark256_n, be_decode_STARK_DERIVE_BIAS]

theorem card_residue (B n r : Nat) (hn : 0 < n) (hr : r < n) (hdvd : n ∣ B) :
    ((Finset.range B).filter (fun c => c % n = r)).card = B / n := by
  have h := Nat.count_modEq_card B hn r
  rw [Nat.count_eq_card_filter_range] at h
  have hmod : B % n = 0 := Nat.mod_eq_zero_of_dvd hdvd
  rw [hmod] at h
  simp only [Nat.not_lt_zero, if_false, Nat.add_zero] at h
  rw [← h]
  congr 1
  apply Finset.filter_congr
  intro c _
  simp [Nat.ModEq, Nat.mod_eq_of_lt hr]

/-- C3: `STARK_DERIVE_BIAS` is the 32-byte big-endian encoding of
`N - N mod n`, where `N` is the group order of secp256k1 and `n` the value of
`C_cx_Stark256_n`, and `C_cx_Stark256_n` is the 32-byte big-endian encoding of
`0x0800000000000010ffffffffffffffffb781126dcae7b2321e66a241adc64d2f`. -/
theorem C3_bias_constant :
    STARK_DERIVE_BIAS.length = 32 ∧ C_cx_Stark256_n.length = 32 ∧
    C_cx_secp256k1_n
      = 0xFFFFFFFFFFFFFFFFFFFFFFFFFFFFFFFEBAAEDCE6AF48A03BBFD25E8CD0364141 ∧
    be_decode STARK_DERIVE_BIAS
      = C_cx_secp256k1_n - C_cx_secp256k1_n % be_decode C_cx_Stark256_n ∧
    be_decode C_cx_Stark256_n
      = 0x0800000000000010ffffffffffffffffb781126dcae7b2321e66a241adc64d2f := by
  refine ⟨rfl, rfl, rfl, ?_, be_decode_Stark256_n⟩
  rw [be_decode_Stark256_n, be_decode_STARK_DERIVE_BIAS, C_cx_secp256k1_n]

/-- C4: `STARK_DERIVE_BIAS` is an exact multiple of `C_cx_Stark256_n`, and any
two residues `r`, `r'` below `C_cx_Stark256_n` have the same number of
preimages among the accepted candidates `0 <= c < STARK_DERIVE_BIAS`
(31 each). -/
theorem C4_uniform_residues (r r' : Nat)
    (hr : r < be_decode C_cx_Stark256_n) (hr' : r' < be_decode C_cx_Stark256_n) :
    be_decode C_cx_Stark256_n ∣ be_decode STARK_DERIVE_BIAS ∧
    ((Finset.range (be_decode STARK_DERIVE_BIAS)).filter
        (fun c => c % be_decode C_cx_Stark256_n = r)).card
      = ((Finset.range (be_decode STARK_DERIVE_BIAS)).filter
        (fun c => c % be_decode C_cx_Stark256_n = r')).card ∧
    ((Finset.range (be_decode STARK_DERIVE_BIAS)).filter
        (fun c => c % be_decode C_cx_Stark256_n = r)).card = 31 := by
  have hdvd : be_decode C_cx_Stark256_n ∣ be_decode STARK_DERIVE_BIAS :=
    ⟨31, by rw [bias_eq_mul, Nat.mul_comm]⟩
  have hq : be_decode STARK_DERIVE_BIAS / be_decode C_cx_Stark256_n = 31 := by
    rw [bias_eq_mul]; exact Nat.mul_div_cancel _ Stark256_n_pos
  refine ⟨hdvd, ?_, ?_⟩
  · rw [card_residue _ _ r Stark256_n_pos hr hdvd, card_residue _ _ r' Stark256_n_pos hr' hdvd]
  · rw [card_residue _ _ r Stark256_n_pos hr hdvd, hq]

/-- C4 at the residues `0` and `1`. -/
theorem C4_uniform_residues_witness :
    (0 < be_decode C_cx_Stark256_n ∧ 1 < be_decode C_cx_Stark256_n) ∧
    ((Finset.range (be_decode STARK_DERIVE_BIAS)).filter
        (fun c => c % be_decode C_cx_Stark256_n = 0)).card
      = ((Finset.range (be_decode STARK_DERIVE_BIAS)).filter
        (fun c => c % be_decode C_cx_Stark256_n = 1)).card :=
  ⟨⟨Stark256_n_pos, by rw [be_decode_Stark256_n]; norm_num⟩,
   (C4_uniform_residues 0 1 Stark256_n_pos (by rw [be_decode_Stark256_n]; norm_num)).2.1⟩

/-! ## The derivation: claims -/

/-- C1, refuted as stated: with the valid path `[2645', 0]`, the seed
`00 .. 00 01` and a hash that always yields `ff .. ff`, every candidate is at
or above the threshold and the derivation is still in its loop after any number
of passes: it does not return. -/
theorem C1_counterexample :
    (2 ≤ sample_path.length ∧ sample_path.headD 0 = sample_consts.STARK_BIP32_PATH_0) ∧
    ((sample_oracles (fun _ => digest_ff)).os_perso_derive_node_bip32 sample_path).2 = none ∧
    ∀ fuel, eip2645_derive_private_key sample_consts (sample_oracles (fun _ => digest_ff))
      sample_path fuel = none := by
  refine ⟨by decide, rfl, fun fuel => ?_⟩
  apply derive_diverges _ _ _ _ (by decide) rfl
  intro k _
  show ¬ below_bias digest_ff
  decide

/-- C1, amended: for a valid path and a seed returned by the seed oracle such
that some retry index `k` in `0..255` has its candidate below
`STARK_DERIVE_BIAS`, the derivation is left with one and the same result for
every fuel from 256 on; the private-key initialiser is called exactly once, on
a 32-byte scalar that is, as a big-endian integer, strictly below
`C_cx_Stark256_n`; the function returns 0 with the initialised key when the
initialiser returns, and passes on the exception when it throws. -/
theorem C1_scalar_below_order (c : Consts) (o : Oracles) (bip32_path : List Nat)
    (hlen : 2 ≤ bip32_path.length) (hhead : bip32_path.headD 0 = c.STARK_BIP32_PATH_0)
    (hseed : (o.os_perso_derive_node_bip32 bip32_path).2 = none)
    (hex : ∃ k, k < 256 ∧
      below_bias (candidate o (o.os_perso_derive_node_bip32 bip32_path).1 k)) :
    ∃ r scalar,
      (∀ fuel, 256 ≤ fuel → eip2645_derive_private_key c o bip32_path fuel = some r) ∧
      init_inputs r.calls = [scalar] ∧
      scalar.length = 32 ∧
      be_decode scalar < be_decode C_cx_Stark256_n ∧
      (∀ key, o.cx_ecfp_init_private_key scalar = Except.ok key →
        r.outcome = Outcome.returned 0 ∧ r.private_key = some key) ∧
      (∀ e, o.cx_ecfp_init_private_key scalar = Except.error e →
        r.outcome = Outcome.thrown e) := by
  obtain ⟨k, hk, hacc, hrej⟩ := exists_first_accepted o _ hex
  have hp : path_check_fails c bip32_path = false :=
    (path_check_passes_iff c bip32_path).2 ⟨hlen, hhead⟩
  refine ⟨accepted_result o (o.os_perso_derive_node_bip32 bip32_path).1 bip32_path k,
    reduced o (o.os_perso_derive_node_bip32 bip32_path).1 k, ?_, ?_, ?_, ?_, ?_, ?_⟩
  · intro fuel hfuel
    exact derive_accept c o bip32_path k fuel hp hseed hk hrej hacc (by omega)
  · exact init_inputs_accepted _ _ _ _
  · exact reduced_length _ _ _
  · rw [be_decode_reduced]
    exact Nat.mod_lt _ Stark256_n_pos
  · intro key hkey
    simp [accepted_result, hkey]
  · intro e he
    simp [accepted_result, he]

/-- C1 at the valid path `[2645', 0]`, the seed `00 .. 00 01` and a hash whose
first two candidates are rejected and whose third is `00 .. 00 05`. -/
theorem C1_scalar_below_order_witness :
    (2 ≤ sample_path.length ∧ sample_path.headD 0 = sample_consts.STARK_BIP32_PATH_0 ∧
      ((sample_oracles hash_third).os_perso_derive_node_bip32 sample_path).2 = none ∧
      below_bias (candidate (sample_oracles hash_third) seed_one 2)) ∧
    ∃ r scalar,
      (∀ fuel, 256 ≤ fuel →
        eip2645_derive_private_key sample_consts (sample_oracles hash_third) sample_path fuel
          = some r) ∧
      init_inputs r.calls = [scalar] ∧
      scalar.length = 32 ∧
      be_decode scalar < be_decode C_cx_Stark256_n ∧
      (∀ key, (sample_oracles hash_third).cx_ecfp_init_private_key scalar = Except.ok key →
        r.outcome = Outcome.returned 0 ∧ r.private_key = some key) ∧
      (∀ e, (sample_oracles hash_third).cx_ecfp_init_private_key scalar = Except.error e →
        r.outcome = Outcome.thrown e) :=
  ⟨⟨by decide, by decide, rfl, by decide⟩,
   C1_scalar_below_order sample_consts (sample_oracles hash_third) sample_path
     (by decide) (by decide) rfl ⟨2, by decide, by decide⟩⟩

/-- C2: a path of length below 2, or whose first index is not
`STARK_BIP32_PATH_0`, makes the derivation throw `SW_DISPLAY_BIP32_PATH_FAIL`
with an empty call log (no seed oracle, hash, bignum or initialiser call), for
every fuel; for a path of length at least 2 that starts with
`STARK_BIP32_PATH_0` the check does not fail, and whenever the derivation is
left its first call was the seed oracle on that path. -/
theorem C2_path_check (c : Consts) (o : Oracles) (bip32_path : List Nat) (fuel : Nat) :
    ((bip32_path.length < 2 ∨ bip32_path.headD 0 ≠ c.STARK_BIP32_PATH_0) →
      eip2645_derive_private_key c o bip32_path fuel =
        some { outcome := Outcome.thrown c.SW_DISPLAY_BIP32_PATH_FAIL, private_key := none,
               raw_private_key := zeros 32, tmp := zeros 33, calls := [] }) ∧
    ((2 ≤ bip32_path.length ∧ bip32_path.headD 0 = c.STARK_BIP32_PATH_0) →
      path_check_fails c bip32_path = false ∧
      ∀ r, eip2645_derive_private_key c o bip32_path fuel = some r →
        r.calls.head? = some (Call.os_perso_derive_node_bip32 bip32_path)) := by
  constructor
  · intro h
    exact derive_invalid_path c o bip32_path fuel ((path_check_fails_iff c bip32_path).2 h)
  · intro h
    have hp := (path_check_passes_iff c bip32_path).2 h
    refine ⟨hp, fun r hr => ?_⟩
    rcases derive_exits c o bip32_path fuel r hr with ⟨hp', _⟩ | ⟨_, e, _, rfl⟩ |
      ⟨_, _, k, _, _, _, _, rfl⟩
    · rw [hp] at hp'; exact absurd hp' (by simp)
    · rfl
    · rfl

/-- C2 at a path with a wrong leading index and at a valid path. -/
theorem C2_path_check_witness :
    ((wrong_path.length < 2 ∨ wrong_path.headD 0 ≠ sample_consts.STARK_BIP32_PATH_0) ∧
      eip2645_derive_private_key sample_consts (sample_oracles hash_third) wrong_path 0 =
        some { outcome := Outcome.thrown sample_consts.SW_DISPLAY_BIP32_PATH_FAIL,
               private_key := none,
               raw_private_key := zeros 32, tmp := zeros 33, calls := [] }) ∧
    ((2 ≤ sample_path.length ∧ sample_path.headD 0 = sample_consts.STARK_BIP32_PATH_0) ∧
      path_check_fails sample_consts sample_path = false) :=
  ⟨⟨by decide, (C2_path_check sample_consts (sample_oracles hash_third) wrong_path 0).1
      (by decide)⟩,
   ⟨by decide, ((C2_path_check sample_consts (sample_oracles hash_third) sample_path 3).2
      (by decide)).1⟩⟩

/-- The locals are erased on every exit that is not a rethrow: the `FINALLY`
block has run when the function returns. -/
theorem locals_erased_on_return (c : Consts) (o : Oracles) (bip32_path : List Nat)
    (fuel : Nat) (r : DeriveResult)
    (hr : eip2645_derive_private_key c o bip32_path fuel = some r)
    (hret : r.outcome.is_thrown = false) :
    r.raw_private_key = zeros 32 ∧ r.tmp = zeros 33 := by
  rcases derive_exits c o bip32_path fuel r hr with ⟨_, rfl⟩ | ⟨_, e, _, rfl⟩ |
    ⟨_, _, k, _, _, _, _, rfl⟩
  · exact ⟨rfl, rfl⟩
  · simp [Outcome.is_thrown] at hret
  · cases hinit : o.cx_ecfp_init_private_key
        (reduced o (o.os_perso_derive_node_bip32 bip32_path).1 k) <;>
      simp_all [accepted_result, Outcome.is_thrown]

/-- C8, the code at the failing inputs. With the valid path `[2645', 0]`, the
seed `00 .. 00 01` and the third candidate `00 .. 00 05` accepted, an
initialiser that throws `0x6F00` makes the function leave by the rethrow of
`CATCH_OTHER` with `raw_private_key = 00 .. 00 05` (the scalar) and
`tmp = 00 .. 00 01 02` (seed and retry index): neither is all-zero. With a seed
oracle that throws `0x6985` after filling the buffer with `ff` bytes, `tmp` is
left as `ff .. ff 00`. The `explicit_bzero` calls of the `FINALLY` block are
reached on the normal return only, where both buffers are all-zero; on the
invalid-path exit the buffers are all-zero because they were never written. -/
theorem C8_locals_left_on_rethrow :
    ((eip2645_derive_private_key sample_consts oracles_init_throws sample_path 3).map
        (fun r => (r.outcome, r.raw_private_key, r.tmp))
      = some (Outcome.thrown 0x6F00, zeros 31 ++ [5], seed_one.bytes ++ [2])) ∧
    zeros 31 ++ [5] ≠ zeros 32 ∧ seed_one.bytes ++ [2] ≠ zeros 33 ∧
    ((eip2645_derive_private_key sample_consts oracles_seed_throws sample_path 3).map
        (fun r => (r.outcome, r.raw_private_key, r.tmp))
      = some (Outcome.thrown 0x6985, zeros 32, digest_ff.bytes ++ [0])) ∧
    digest_ff.bytes ++ [0] ≠ zeros 33 ∧
    ((eip2645_derive_private_key sample_consts (sample_oracles hash_third) sample_path 3).map
        (fun r => (r.outcome, r.raw_private_key, r.tmp))
      = some (Outcome.returned 0, zeros 32, zeros 33)) ∧
    ((eip2645_derive_private_key sample_consts (sample_oracles hash_third) wrong_path 3).map
        (fun r => (r.outcome, r.raw_private_key, r.tmp))
      = some (Outcome.thrown 0xB001, zeros 32, zeros 33)) := by
  refine ⟨?_, ?_, ?_, ?_, ?_, ?_, ?_⟩ <;> decide

/-! ## The loop: claims -/

theorem hash_inputs_iteration (o : Oracles) (st : LoopState) :
    hash_inputs (loop_iteration o st).1.calls
      = hash_inputs st.calls ++ [(st.tmp.set 32 st.index).take 33] := by
  simp only [loop_iteration]
  split_ifs <;> simp [hash_inputs, List.filterMap_append]

/-- The loop when the candidates below index `k` are rejected and the one of
index `k` is accepted. -/
theorem retry_sequence (o : Oracles) (seed : Bytes32) (bip32_path : List Nat)
    (k fuel : Nat) (hk : k < 256)
    (hrej : ∀ j < k, ¬ below_bias (candidate o seed j))
    (hacc : below_bias (candidate o seed k)) (hfuel : k < fuel) :
    ∃ st,
      derivation_loop o fuel (loop_entry seed bip32_path) = some st ∧
      (loop_run o k (loop_entry seed bip32_path)).2 = false ∧
      loop_run o (k + 1) (loop_entry seed bip32_path) = (st, true) ∧
      hash_inputs st.calls = (List.range (k + 1)).map (fun j => seed.bytes ++ [j]) ∧
      (hash_inputs st.calls).length = k + 1 ∧
      st.raw_private_key.length = 32 ∧
      be_decode st.raw_private_key
        = be_decode (candidate o seed k).bytes % be_decode C_cx_Stark256_n := by
  have hk' : (0 + k) % 256 = k := by rw [Nat.zero_add]; exact Nat.mod_eq_of_lt hk
  have hrej' : ∀ j < k, ¬ below_bias
      (candidate o seed (((loop_entry seed bip32_path).index + j) % 256)) := by
    intro j hj
    have : j % 256 = j := Nat.mod_eq_of_lt (by omega)
    simpa [loop_entry, this] using hrej j hj
  have hacc' : below_bias
      (candidate o seed (((loop_entry seed bip32_path).index + k) % 256)) := by
    have : k % 256 = k := Nat.mod_eq_of_lt hk
    simpa [loop_entry, this] using hacc
  have hrun : ∀ e, loop_run o (k + (e + 1)) (loop_entry seed bip32_path) = _ :=
    fun e => loop_run_accept o seed k e (loop_entry seed bip32_path) 0 rfl
      (by simp [loop_entry]) hrej' hacc'
  have hnot := loop_run_reject o seed k (loop_entry seed bip32_path) 0 rfl
    (by simp [loop_entry]) hrej'
  obtain ⟨e, rfl⟩ : ∃ e, fuel = k + (e + 1) := ⟨fuel - k - 1, by omega⟩
  have hh : hash_inputs ((loop_entry seed bip32_path).calls ++
      (rejected_calls o seed (loop_entry seed bip32_path).index k ++
        accepting_calls o seed (((loop_entry seed bip32_path).index + k) % 256)))
      = (List.range (k + 1)).map (fun j => seed.bytes ++ [j]) := by
    have hi : (loop_entry seed bip32_path).index = 0 := rfl
    rw [hash_inputs_append, hash_inputs_append, hash_inputs_rejected, hi,
      map_seed_index_mod seed k (by omega), hk', List.range_succ, List.map_append]
    simp [hash_inputs, accepting_calls, loop_entry]
  refine ⟨_, ?_, ?_, hrun 0, hh, ?_, ?_, ?_⟩
  · simp only [derivation_loop, hrun e]
  · rw [hnot]
  · rw [hh]; simp
  · exact reduced_length _ _ _
  · show be_decode (reduced o seed (((loop_entry seed bip32_path).index + k) % 256)) = _
    have hi : (loop_entry seed bip32_path).index = 0 := rfl
    rw [hi, hk', be_decode_reduced]

/-- C5: when the candidates of the retry indices below `k` (`k` in `0..255`)
are at or above the threshold and the one of index `k` is below it, the loop
is left by its pass number `k+1` and not before, whatever fuel above `k` it is
given; its hash calls are exactly the `k+1` buffers `seed || 0`, ..,
`seed || k` in this order, and the scalar left in `raw_private_key` is 32 bytes
whose value is the candidate of index `k` modulo `C_cx_Stark256_n`. With `k = 0`:
one pass, one hash call, the reduction of the first candidate. -/
theorem C5_retry_sequence (o : Oracles) (seed : Bytes32) (bip32_path : List Nat)
    (k fuel : Nat) (hk : k < 256)
    (hrej : ∀ j < k, ¬ below_bias (candidate o seed j))
    (hacc : below_bias (candidate o seed k)) (hfuel : k < fuel) :
    ∃ st,
      derivation_loop o fuel (loop_entry seed bip32_path) = some st ∧
      (loop_run o k (loop_entry seed bip32_path)).2 = false ∧
      loop_run o (k + 1) (loop_entry seed bip32_path) = (st, true) ∧
      hash_inputs st.calls = (List.range (k + 1)).map (fun j => seed.bytes ++ [j]) ∧
      (hash_inputs st.calls).length = k + 1 ∧
      st.raw_private_key.length = 32 ∧
      be_decode st.raw_private_key
        = be_decode (candidate o seed k).bytes % be_decode C_cx_Stark256_n :=
  retry_sequence o seed bip32_path k fuel hk hrej hacc hfuel

/-- C5 with the seed `00 .. 00 01` and a hash that rejects the indices 0 and 1
and yields `00 .. 00 05` at index 2. -/
theorem C5_retry_sequence_witness :
    ((2 : Nat) < 256 ∧
      (∀ j < 2, ¬ below_bias (candidate (sample_oracles hash_third) seed_one j)) ∧
      below_bias (candidate (sample_oracles hash_third) seed_one 2)) ∧
    ∃ st,
      derivation_loop (sample_oracles hash_third) 3 (loop_entry seed_one sample_path)
        = some st ∧
      (loop_run (sample_oracles hash_third) 2 (loop_entry seed_one sample_path)).2 = false ∧
      loop_run (sample_oracles hash_third) (2 + 1) (loop_entry seed_one sample_path)
        = (st, true) ∧
      hash_inputs st.calls = (List.range (2 + 1)).map (fun j => seed_one.bytes ++ [j]) ∧
      (hash_inputs st.calls).length = 2 + 1 ∧
      st.raw_private_key.length = 32 ∧
      be_decode st.raw_private_key
        = be_decode (candidate (sample_oracles hash_third) seed_one 2).bytes
            % be_decode C_cx_Stark256_n :=
  ⟨⟨by decide, by decide, by decide⟩,
   C5_retry_sequence (sample_oracles hash_third) seed_one sample_path 2 3
     (by decide) (by decide) (by decide) (by decide)⟩

/-- C6: a pass of the loop ends with `break` exactly when the candidate it
hashed is strictly below `STARK_DERIVE_BIAS` as a big-endian unsigned
integer, and then the candidate is reduced and the loop is over; a candidate
equal to `STARK_DERIVE_BIAS` is rejected: the 8-bit index is incremented and
the next pass hashes the buffer with the new index. -/
theorem C6_strict_comparison (o : Oracles) (st : LoopState) :
    ((loop_iteration o st).2 = true ↔
      be_decode (o.cx_hash_sha256 ((st.tmp.set 32 st.index).take 33)).bytes
        < be_decode STARK_DERIVE_BIAS) ∧
    ((loop_iteration o st).2 = true →
      (loop_iteration o st).1.raw_private_key
        = cx_math_modm (o.cx_hash_sha256 ((st.tmp.set 32 st.index).take 33)).bytes 32
            C_cx_Stark256_n 32 ∧
      ∀ n, loop_run o (n + 1) st = loop_iteration o st) ∧
    ((o.cx_hash_sha256 ((st.tmp.set 32 st.index).take 33)).bytes = STARK_DERIVE_BIAS →
      (loop_iteration o st).2 = false ∧
      (loop_iteration o st).1.index = (st.index + 1) % 256 ∧
      (∀ n, loop_run o (n + 1) st = loop_run o n (loop_iteration o st).1) ∧
      hash_inputs (loop_run o 2 st).1.calls
        = hash_inputs st.calls ++
            [(st.tmp.set 32 st.index).take 33,
             ((st.tmp.set 32 st.index).set 32 ((st.index + 1) % 256)).take 33]) := by
  have hiff : (loop_iteration o st).2 = true ↔
      be_decode (o.cx_hash_sha256 ((st.tmp.set 32 st.index).take 33)).bytes
        < be_decode STARK_DERIVE_BIAS := by
    have hc := cmp_bias_iff (o.cx_hash_sha256 ((st.tmp.set 32 st.index).take 33))
    unfold below_bias at hc
    simp only [loop_iteration]
    split_ifs with h
    · simpa using hc.1 h
    · simpa using fun h' => h (hc.2 h')
  refine ⟨hiff, ?_, ?_⟩
  · intro hb
    constructor
    · have hlt := (cmp_bias_iff _).2 (hiff.1 hb)
      simp only [loop_iteration, hlt, if_true]
    · intro n
      rw [loop_run_succ, if_pos hb]
  · intro heq
    have hnot : ¬ (loop_iteration o st).2 = true := by
      rw [hiff, heq]; exact lt_irrefl _
    have hfalse : (loop_iteration o st).2 = false := by simpa using hnot
    have hnc : ¬ cx_math_cmp (o.cx_hash_sha256 ((st.tmp.set 32 st.index).take 33)).bytes
        STARK_DERIVE_BIAS 32 < 0 := by
      rw [cmp_bias_iff, below_bias, heq]; exact lt_irrefl _
    have hidx : (loop_iteration o st).1.index = (st.index + 1) % 256 := by
      simp only [loop_iteration, hnc, if_false]
    have htmp : (loop_iteration o st).1.tmp = st.tmp.set 32 st.index := by
      simp only [loop_iteration, hnc, if_false]
    have hnext : ∀ n, loop_run o (n + 1) st = loop_run o n (loop_iteration o st).1 := by
      intro n
      rw [loop_run_succ, if_neg hnot]
    refine ⟨hfalse, hidx, hnext, ?_⟩
    rw [show (2 : Nat) = 1 + 1 from rfl, hnext 1, show (1 : Nat) = 0 + 1 from rfl,
      loop_run_succ]
    have h2 : (if (loop_iteration o (loop_iteration o st).1).2 = true
        then loop_iteration o (loop_iteration o st).1
        else loop_run o 0 (loop_iteration o (loop_iteration o st).1).1).1
        = (loop_iteration o (loop_iteration o st).1).1 := by
      split_ifs <;> rfl
    rw [h2, hash_inputs_iteration, hash_inputs_iteration, hidx, htmp]
    simp

/-- C6 when the first digest is `STARK_DERIVE_BIAS` itself. -/
theorem C6_strict_comparison_witness :
    ((sample_oracles (fun _ => digest_bias)).cx_hash_sha256
        (((loop_entry seed_one sample_path).tmp.set 32
          (loop_entry seed_one sample_path).index).take 33)).bytes = STARK_DERIVE_BIAS ∧
    (loop_iteration (sample_oracles (fun _ => digest_bias))
      (loop_entry seed_one sample_path)).2 = false ∧
    (loop_iteration (sample_oracles (fun _ => digest_bias))
      (loop_entry seed_one sample_path)).1.index = 1 :=
  ⟨rfl,
   ((C6_strict_comparison (sample_oracles (fun _ => digest_bias))
      (loop_entry seed_one sample_path)).2.2 rfl).1,
   ((C6_strict_comparison (sample_oracles (fun _ => digest_bias))
      (loop_entry seed_one sample_path)).2.2 rfl).2.1⟩

theorem be_decode_zeros : be_decode (zeros 32) = 0 := by decide

theorem be_encode_eq_zeros_iff (x : Nat) (h : x < 256 ^ 32) :
    be_encode 32 x = zeros 32 ↔ x = 0 := by
  constructor
  · intro hz
    have := congrArg be_decode hz
    rwa [be_decode_encode_of_lt 32 x h, be_decode_zeros] at this
  · rintro rfl
    decide

theorem reduced_eq_zeros_iff (o : Oracles) (seed : Bytes32) (k : Nat) :
    reduced o seed k = zeros 32 ↔
      be_decode C_cx_Stark256_n ∣ be_decode (candidate o seed k).bytes := by
  unfold reduced
  rw [be_encode_eq_zeros_iff _ (lt_trans (Nat.mod_lt _ Stark256_n_pos) Stark256_n_lt)]
  exact Nat.dvd_iff_mod_eq_zero.symm

/-- C10: the zero scalar is not excluded. Whenever the derivation accepts the
candidate of retry index `k`, the scalar handed to the private-key initialiser
is 32 zero bytes (value 0) exactly when that candidate is a multiple of
`C_cx_Stark256_n`; the candidates `0` and `C_cx_Stark256_n` are both below
`STARK_DERIVE_BIAS`, and with either as first digest the initialiser receives
32 zero bytes. -/
theorem C10_zero_scalar :
    (∀ (c : Consts) (o : Oracles) (bip32_path : List Nat) (k fuel : Nat),
      2 ≤ bip32_path.length → bip32_path.headD 0 = c.STARK_BIP32_PATH_0 →
      (o.os_perso_derive_node_bip32 bip32_path).2 = none →
      k < 256 →
      (∀ j < k, ¬ below_bias (candidate o (o.os_perso_derive_node_bip32 bip32_path).1 j)) →
      below_bias (candidate o (o.os_perso_derive_node_bip32 bip32_path).1 k) →
      k < fuel →
      ∃ r scalar,
        eip2645_derive_private_key c o bip32_path fuel = some r ∧
        init_inputs r.calls = [scalar] ∧
        (scalar = zeros 32 ↔
          be_decode C_cx_Stark256_n ∣
            be_decode (candidate o (o.os_perso_derive_node_bip32 bip32_path).1 k).bytes) ∧
        (be_decode scalar = 0 ↔
          be_decode C_cx_Stark256_n ∣
            be_decode (candidate o (o.os_perso_derive_node_bip32 bip32_path).1 k).bytes)) ∧
    below_bias digest_zero ∧ be_decode digest_zero.bytes = 0 ∧
    below_bias digest_order ∧ be_decode digest_order.bytes = be_decode C_cx_Stark256_n ∧
    (eip2645_derive_private_key sample_consts (sample_oracles (fun _ => digest_zero))
        sample_path 1).map (fun r => (r.outcome, init_inputs r.calls))
      = some (Outcome.returned 0, [zeros 32]) ∧
    (eip2645_derive_private_key sample_consts (sample_oracles (fun _ => digest_order))
        sample_path 1).map (fun r => (r.outcome, init_inputs r.calls))
      = some (Outcome.returned 0, [zeros 32]) := by
  refine ⟨?_, by decide, by decide, by decide, rfl, by decide, by decide⟩
  intro c o bip32_path k fuel hlen hhead hseed hk hrej hacc hfuel
  have hp : path_check_fails c bip32_path = false :=
    (path_check_passes_iff c bip32_path).2 ⟨hlen, hhead⟩
  refine ⟨_, reduced o (o.os_perso_derive_node_bip32 bip32_path).1 k,
    derive_accept c o bip32_path k fuel hp hseed hk hrej hacc hfuel,
    init_inputs_accepted _ _ _ _, reduced_eq_zeros_iff _ _ _, ?_⟩
  rw [be_decode_reduced]
  exact Nat.dvd_iff_mod_eq_zero.symm

/-- C10 at the valid path `[2645', 0]` with `C_cx_Stark256_n` as first digest:
the initialiser receives 32 zero bytes. -/
theorem C10_zero_scalar_witness :
    (2 ≤ sample_path.length ∧ sample_path.headD 0 = sample_consts.STARK_BIP32_PATH_0 ∧
      below_bias (candidate (sample_oracles (fun _ => digest_order)) seed_one 0)) ∧
    ∃ r scalar,
      eip2645_derive_private_key sample_consts (sample_oracles (fun _ => digest_order))
        sample_path 1 = some r ∧
      init_inputs r.calls = [scalar] ∧
      (scalar = zeros 32 ↔
        be_decode C_cx_Stark256_n ∣
          be_decode (candidate (sample_oracles (fun _ => digest_order)) seed_one 0).bytes) ∧
      (be_decode scalar = 0 ↔
        be_decode C_cx_Stark256_n ∣
          be_decode (candidate (sample_oracles (fun _ => digest_order)) seed_one 0).bytes) :=
  ⟨⟨by decide, by decide, by decide⟩,
   C10_zero_scalar.1 sample_consts (sample_oracles (fun _ => digest_order)) sample_path 0 1
     (by decide) (by decide) rfl (by decide) (by decide) (by decide) (by decide)⟩

/-! ## Signing: claims -/

/-- C7, refuted as stated: with a valid path and a signing oracle that writes
`aa` bytes into the signature buffer before returning the length `-1`,
`crypto_sign_message` returns `-1` and the signature buffer of the shared
output state, all zero before the call, holds the `aa` bytes afterwards: the
failure has a side effect on the public output state. -/
theorem C7_counterexample :
    (2 ≤ sample_context.bip32_path.length ∧
      sample_context.bip32_path.headD 0 = sample_consts.STARK_BIP32_PATH_0) ∧
    sample_context.hash_info.signature = zeros 72 ∧
    (crypto_sign_message sample_consts (signing_oracles sign_negative) sample_context 1).map
        (fun r => (r.outcome, r.G_context.hash_info.signature))
      = some (Outcome.returned (-1), List.replicate 72 0xAA) ∧
    List.replicate 72 0xAA ≠ sample_context.hash_info.signature := by
  decide

/-- C7, amended: when the derivation returns, `crypto_sign_message` is left
for the same fuel; it returns 0 exactly when the signing oracle returns a
non-negative length without throwing, and then `signature_len` is that length
and `v` is `info & CX_ECCINFO_PARITY_ODD`, the lowest bit of `info`. When the
oracle returns a negative length the function returns -1, and when the oracle
throws the exception is passed on; in both cases `signature_len` and `v` are
unchanged. On every one of these exits the signature buffer holds what the
oracle left in it (the oracle writes into the shared buffer directly, so only
`signature_len` and `v` are untouched on failure) and the path and the digest
are unchanged. The local private key is erased when the oracle returns and is
left as derived when the oracle throws. When the derivation throws, the
exception is passed on and the context is unchanged. -/
theorem C7_sign_outcome (c : Consts) (o : Oracles) (G : global_ctx_t) (fuel : Nat)
    (d : DeriveResult)
    (hd : eip2645_derive_private_key c o G.bip32_path fuel = some d) :
    (d.outcome = Outcome.returned 0 →
      ∃ r, crypto_sign_message c o G fuel = some r ∧
        (r.outcome = Outcome.returned 0 ↔
          ∃ len info,
            (o.cx_ecdsa_sign (d.private_key.getD zero_private_key) G.hash_info.m_hash
              G.hash_info.signature).result = Except.ok (len, info) ∧ 0 ≤ len) ∧
        (∀ len info,
          (o.cx_ecdsa_sign (d.private_key.getD zero_private_key) G.hash_info.m_hash
            G.hash_info.signature).result = Except.ok (len, info) → 0 ≤ len →
          r.outcome = Outcome.returned 0 ∧
          (r.G_context.hash_info.signature_len : Int) = len ∧
          r.G_context.hash_info.v = (Nat.land info CX_ECCINFO_PARITY_ODD) % 256 ∧
          r.G_context.hash_info.v = info % 2) ∧
        (∀ len info,
          (o.cx_ecdsa_sign (d.private_key.getD zero_private_key) G.hash_info.m_hash
            G.hash_info.signature).result = Except.ok (len, info) → len < 0 →
          r.outcome = Outcome.returned (-1) ∧
          r.G_context.hash_info.signature_len = G.hash_info.signature_len ∧
          r.G_context.hash_info.v = G.hash_info.v) ∧
        (∀ e,
          (o.cx_ecdsa_sign (d.private_key.getD zero_private_key) G.hash_info.m_hash
            G.hash_info.signature).result = Except.error e →
          r.outcome = Outcome.thrown e ∧
          r.G_context.hash_info.signature_len = G.hash_info.signature_len ∧
          r.G_context.hash_info.v = G.hash_info.v) ∧
        r.G_context.hash_info.signature
          = (o.cx_ecdsa_sign (d.private_key.getD zero_private_key) G.hash_info.m_hash
              G.hash_info.signature).signature ∧
        r.G_context.bip32_path = G.bip32_path ∧
        r.G_context.hash_info.m_hash = G.hash_info.m_hash ∧
        (∀ len info,
          (o.cx_ecdsa_sign (d.private_key.getD zero_private_key) G.hash_info.m_hash
            G.hash_info.signature).result = Except.ok (len, info) →
          r.private_key = zero_private_key) ∧
        (∀ e,
          (o.cx_ecdsa_sign (d.private_key.getD zero_private_key) G.hash_info.m_hash
            G.hash_info.signature).result = Except.error e →
          r.private_key = d.private_key.getD zero_private_key)) ∧
    (∀ e, d.outcome = Outcome.thrown e →
      ∃ r, crypto_sign_message c o G fuel = some r ∧
        r.outcome = Outcome.thrown e ∧ r.G_context = G ∧ r.calls = d.calls) := by
  constructor
  · intro hret
    simp only [crypto_sign_message, hd, hret]
    rcases hres : (o.cx_ecdsa_sign (d.private_key.getD zero_private_key) G.hash_info.m_hash
        G.hash_info.signature).result with e | ⟨len, info⟩
    · exact ⟨_, rfl, by simp, by simp, by simp, by simp, rfl, rfl, rfl, by simp,
        fun _ _ => rfl⟩
    · by_cases hneg : len < 0
      · simp only [hneg, if_true]
        refine ⟨_, rfl, ?_, ?_, ?_, by simp, rfl, rfl, rfl, fun _ _ _ => rfl, by simp⟩
        · simpa using hneg
        · intro l i h hl
          simp only [Except.ok.injEq, Prod.mk.injEq] at h
          omega
        · intro l i _ _
          exact ⟨rfl, rfl, rfl⟩
      · simp only [hneg, if_false]
        have hnn : 0 ≤ len := not_lt.1 hneg
        refine ⟨_, rfl, ?_, ?_, ?_, by simp, rfl, rfl, rfl, fun _ _ _ => rfl, by simp⟩
        · simpa using hnn
        · intro l i h _
          simp only [Except.ok.injEq, Prod.mk.injEq] at h
          obtain ⟨rfl, rfl⟩ := h
          refine ⟨rfl, Int.toNat_of_nonneg hnn, rfl, ?_⟩
          show (Nat.land info 1) % 256 = info % 2
          have h1 : Nat.land info 1 = info % 2 := Nat.and_one_is_mod info
          rw [h1]
          omega
        · intro l i h hl
          simp only [Except.ok.injEq, Prod.mk.injEq] at h
          omega
  · intro e he
    simp only [crypto_sign_message, hd, he]
    exact ⟨_, rfl, rfl, rfl, rfl⟩

/-- C7 at a valid path with a signing oracle that returns the length 64 and
the `info` word 1: the function returns 0, `signature_len` is 64 and `v` is 1. -/
theorem C7_sign_outcome_witness :
    eip2645_derive_private_key sample_consts (signing_oracles (sample_sign 64 1))
        sample_context.bip32_path 1
      = some (accepted_result (signing_oracles (sample_sign 64 1)) seed_one sample_path 0) ∧
    (accepted_result (signing_oracles (sample_sign 64 1)) seed_one sample_path 0).outcome
      = Outcome.returned 0 ∧
    ∃ r, crypto_sign_message sample_consts (signing_oracles (sample_sign 64 1))
          sample_context 1 = some r ∧
      r.outcome = Outcome.returned 0 ∧
      (r.G_context.hash_info.signature_len : Int) = 64 ∧
      r.G_context.hash_info.v = 1 := by
  have hd : eip2645_derive_private_key sample_consts (signing_oracles (sample_sign 64 1))
        sample_context.bip32_path 1
      = some (accepted_result (signing_oracles (sample_sign 64 1)) seed_one sample_path 0) := by
    decide
  have ho : (accepted_result (signing_oracles (sample_sign 64 1)) seed_one
      sample_path 0).outcome = Outcome.returned 0 := by decide
  obtain ⟨r, hr, _, hok, _⟩ :=
    (C7_sign_outcome sample_consts (signing_oracles (sample_sign 64 1)) sample_context 1
      _ hd).1 ho
  have h := hok 64 1 rfl (by decide)
  exact ⟨hd, ho, r, hr, h.1, h.2.1, h.2.2.2⟩

end Starknet
